import Mathlib

/-!
Verification development for the chart-extraction engine of
`frontend/src/utils/chartDataParser.js`.

The JavaScript source is shallowly embedded: JS values that can appear in
parsed chart data are modelled by the inductive `Json`, JS numbers by
`JSNum` (finite numbers are represented by rationals; `NaN`, `Infinity`
and `-Infinity` are explicit constructors), JS regular-expression
matching by a small backtracking matcher that enumerates alternatives in
the same order as the JS engine, and `JSON.parse` by a total recursive
descent parser returning `Except`.  Modelling decisions that abstract
from the ECMAScript data types are noted at each definition.
-/

/-! ## Characters and elementary string operations -/

/-- The opening brace character. -/
def lbrace : Char := Char.ofNat 123

/-- The closing brace character. -/
def rbrace : Char := Char.ofNat 125

/-- The backtick character. -/
def btick : Char := Char.ofNat 96

/-- JS whitespace as used by `\s`, `trim()` and `parseFloat` (ASCII
whitespace plus no-break space and BOM; the rarer Unicode space
characters are not modelled). -/
def jsWhitespace (c : Char) : Bool :=
  c = ' ' || c = '\t' || c = '\n' || c = '\r' ||
  c = Char.ofNat 11 || c = Char.ofNat 12 || c = Char.ofNat 0xa0 || c = Char.ofNat 0xfeff

/-- ASCII lower-casing, as applied by `toLowerCase()` to the inputs that
occur here (chart-type tokens and title prefixes). -/
def toLowerChar (c : Char) : Char :=
  if 'A' ≤ c && c ≤ 'Z' then Char.ofNat (c.toNat + 32) else c

/-- `String.prototype.trim()` on a character list. -/
def trimChars (s : List Char) : List Char :=
  ((s.dropWhile jsWhitespace).reverse.dropWhile jsWhitespace).reverse

/-- `String.prototype.split(sep)` for a one-character separator;
empty pieces are kept, as in JS. -/
def splitOnChar (sep : Char) : List Char → List (List Char)
  | [] => [[]]
  | c :: rest =>
    let r := splitOnChar sep rest
    if c = sep then [] :: r
    else match r with
      | [] => [[c]]
      | piece :: more => (c :: piece) :: more

/-- Whether `pat` occurs at the start of `s`. -/
def startsWithChars (pat s : List Char) : Bool :=
  decide (pat <+: s)

/-- `String.prototype.includes` for a substring. -/
def containsSub (s pat : List Char) : Bool :=
  match s with
  | [] => startsWithChars pat []
  | _ :: rest => startsWithChars pat s || containsSub rest pat

/-- `String.prototype.indexOf`: index of the first occurrence of `pat`
in `s`, or `none`. -/
def indexOfSub (s pat : List Char) : Option Nat :=
  match s with
  | [] => if startsWithChars pat [] then some 0 else none
  | _ :: rest =>
    if startsWithChars pat s then some 0
    else match indexOfSub rest pat with
      | some i => some (i + 1)
      | none => none

/-- The window of up to `win` characters of `text` that precede index
`idx`, i.e. `text.substring(max(0, idx - win), idx)`. -/
def lookback (text : List Char) (idx win : Nat) : List Char :=
  (text.take idx).drop (idx - win)

/-! ## JS numbers and values -/

/-- A JS number: a finite value (modelled as a rational; IEEE-754
rounding is not modelled, which is exact on the integer and short
decimal literals this engine consumes), `NaN`, or a signed infinity. -/
inductive JSNum where
  | finite (q : ℚ)
  | nan
  | inf
  | negInf
deriving DecidableEq

/-- Rational addition in its `mkRat` normal form (definitionally
evaluable; equal to `+` on `ℚ`). -/
def ratAdd (a b : ℚ) : ℚ :=
  mkRat (a.num * b.den + b.num * a.den) (a.den * b.den)

/-- JS `+` on two numbers. -/
def numAdd : JSNum → JSNum → JSNum
  | JSNum.nan, _ => JSNum.nan
  | _, JSNum.nan => JSNum.nan
  | JSNum.inf, JSNum.negInf => JSNum.nan
  | JSNum.negInf, JSNum.inf => JSNum.nan
  | JSNum.inf, _ => JSNum.inf
  | _, JSNum.inf => JSNum.inf
  | JSNum.negInf, _ => JSNum.negInf
  | _, JSNum.negInf => JSNum.negInf
  | JSNum.finite a, JSNum.finite b => JSNum.finite (ratAdd a b)

/-- JS truthiness of a number (`0`, `-0` and `NaN` are falsy). -/
def truthyNum : JSNum → Bool
  | JSNum.finite q => !(q = 0 : Bool)
  | JSNum.nan => false
  | JSNum.inf => true
  | JSNum.negInf => true

/-- A JSON/JS value as produced by `JSON.parse` or assembled by the
extractors.  Object fields are kept in insertion order, as JS does for
string keys. -/
inductive Json where
  | num (n : JSNum)
  | str (s : String)
  | bool (b : Bool)
  | null
  | arr (elems : List Json)
  | obj (fields : List (String × Json))

/-- The enumerable own properties of a value, as `Object.keys` / the
`in` operator see them for the values reachable here: objects expose
their field names, arrays and strings their index strings, primitives
nothing.  (`Object.keys` is only applied to objects and arrays by the
source; the remaining cases are supplied to keep the function total.) -/
def jsFields : Json → List (String × Json)
  | Json.obj fs => fs
  | Json.arr xs => xs.enum.map (fun p => (toString p.1, p.2))
  | Json.str s => (s.data.enum.map (fun p => (toString p.1, Json.str (String.mk [p.2]))))
  | _ => []

/-- Property names of a value (`Object.keys`). -/
def jsKeys (j : Json) : List String :=
  (jsFields j).map (fun p => p.1)

/-- Property read `item[k]`; `none` models `undefined`. -/
def jsGet (j : Json) (k : String) : Option Json :=
  (jsFields j).lookup k

/-! ## Validator (`isValidChartData`, lines 132-185) -/

/-- `typeof v === 'number'`. -/
def isNumberVal : Option Json → Bool
  | some (Json.num _) => true
  | _ => false

/-- `typeof v === 'number' && !isNaN(v)` (note: `isFinite` is *not*
checked here, matching line 168 of the source). -/
def isNonNaNNumber : Json → Bool
  | Json.num JSNum.nan => false
  | Json.num _ => true
  | _ => false

/-- `typeof v === 'number' && !isNaN(v) && isFinite(v)`. -/
def isFiniteNumber : Option Json → Bool
  | some (Json.num (JSNum.finite _)) => true
  | _ => false

/-- Whether `item` is a non-null object in the `typeof` sense (objects,
arrays); strings, numbers, booleans and `null` fail the
`typeof item !== 'object' || item === null` guard at line 145. -/
def isObjectLike : Json → Bool
  | Json.obj _ => true
  | Json.arr _ => true
  | _ => false

/-- The per-element structure check of `isValidChartData`
(lines 144-170). -/
def itemValidStructure (item : Json) : Bool :=
  if !(isObjectLike item) then false
  else
    let keys := jsKeys item
    if keys.length = 0 then false
    else if keys.contains "name" && keys.contains "value" then
      -- name/value shape: value must be a finite number
      isFiniteNumber (jsGet item "value")
    else if keys.contains "x" && keys.contains "y" then
      -- x/y shape: only `typeof` is checked, NaN/Infinity pass
      isNumberVal (jsGet item "x") && isNumberVal (jsGet item "y")
    else
      -- generic shape: at least one numeric non-NaN field
      1 ≤ ((jsFields item).filter (fun kv => isNonNaNNumber kv.2)).length

/-- The value of `item.value || 0` as it enters the `+` fold at
line 177-178, classified as either a number or "some string" (a string
operand makes the whole fold a string, which is never `=== 0`). -/
inductive AddVal where
  | num (n : JSNum)
  | strv
deriving DecidableEq

/-- `item.value || 0` followed by the `+` coercion of the operand:
absent, `null`, `false`, `NaN`, `0` and `""` collapse to the number 0;
`true` adds as 1; objects, arrays and non-empty strings make the sum a
string. -/
def valueOrZero (v : Option Json) : AddVal :=
  match v with
  | none => AddVal.num (JSNum.finite 0)
  | some (Json.num n) => if truthyNum n then AddVal.num n else AddVal.num (JSNum.finite 0)
  | some (Json.str s) => if s = "" then AddVal.num (JSNum.finite 0) else AddVal.strv
  | some (Json.bool b) => if b then AddVal.num (JSNum.finite 1) else AddVal.num (JSNum.finite 0)
  | some Json.null => AddVal.num (JSNum.finite 0)
  | some (Json.arr _) => AddVal.strv
  | some (Json.obj _) => AddVal.strv

/-- JS `+` on fold operands: any string operand produces a string. -/
def addJs : AddVal → AddVal → AddVal
  | AddVal.strv, _ => AddVal.strv
  | _, AddVal.strv => AddVal.strv
  | AddVal.num a, AddVal.num b => AddVal.num (numAdd a b)

/-- `isValidChartData` (lines 132-185): array, non-empty, all elements
structurally valid, and the `reduce`-sum of `item.value || 0` is not
`=== 0`. -/
def isValidChartData (data : Json) : Bool :=
  match data with
  | Json.arr items =>
    if items.length = 0 then false
    else if !(items.all itemValidStructure) then false
    else
      let values := items.map (fun item => valueOrZero (jsGet item "value"))
      let sum := values.foldl addJs (AddVal.num (JSNum.finite 0))
      if sum = AddVal.num (JSNum.finite 0) then false
      else true
  | _ => false

/-! ## Deduplicator (`createDataSignature`, lines 190-198) -/

/-- Hexadecimal digit. -/
def hexDigit (n : Nat) : Char :=
  if n < 10 then Char.ofNat (48 + n) else Char.ofNat (87 + n)

/-- JSON string escaping as performed by `JSON.stringify`. -/
def escapeChar (c : Char) : List Char :=
  if c = '"' then ['\\', '"']
  else if c = '\\' then ['\\', '\\']
  else if c = '\n' then ['\\', 'n']
  else if c = '\t' then ['\\', 't']
  else if c = '\r' then ['\\', 'r']
  else if c = Char.ofNat 8 then ['\\', 'b']
  else if c = Char.ofNat 12 then ['\\', 'f']
  else if c.toNat < 32 then
    ['\\', 'u', '0', '0', hexDigit (c.toNat / 16), hexDigit (c.toNat % 16)]
  else [c]

/-- `JSON.stringify` of a string value, including the quotes. -/
def stringifyStr (s : String) : String :=
  String.mk ('"' :: (s.data.flatMap escapeChar) ++ ['"'])

/-- Rendering of a JS number by `JSON.stringify`.  Finite values are
rendered from the rational representation (integers exactly as JS
does; non-integer rationals as `num/den`, an injective stand-in for the
decimal rendering JS would produce).  `NaN` and the infinities render
as `null`, as in JS. -/
def numToString : JSNum → String
  | JSNum.finite q => if q.den = 1 then toString q.num else toString q.num ++ "/" ++ toString q.den
  | _ => "null"

mutual

/-- `JSON.stringify` (on the value shapes reachable in this engine;
`undefined` never occurs inside parsed data). -/
def stringify : Json → String
  | Json.num n => numToString n
  | Json.str s => stringifyStr s
  | Json.bool b => if b then "true" else "false"
  | Json.null => "null"
  | Json.arr xs => "[" ++ stringifyItems xs ++ "]"
  | Json.obj fs => String.mk [lbrace] ++ stringifyMembers fs ++ String.mk [rbrace]

/-- The comma-separated renderings of an array's elements. -/
def stringifyItems : List Json → String
  | [] => ""
  | [x] => stringify x
  | x :: y :: rest => stringify x ++ "," ++ stringifyItems (y :: rest)

/-- The comma-separated renderings of an object's members. -/
def stringifyMembers : List (String × Json) → String
  | [] => ""
  | [kv] => stringifyStr kv.1 ++ ":" ++ stringify kv.2
  | kv :: m :: rest => stringifyStr kv.1 ++ ":" ++ stringify kv.2 ++ "," ++ stringifyMembers (m :: rest)

end

/-- Lexicographic comparison of character lists by code point; the
comparator below applies it to collation keys, never to raw strings. -/
def lexLeChars : List Char → List Char → Bool
  | [], _ => true
  | _ :: _, [] => false
  | a :: as, b :: bs =>
    if a = b then lexLeChars as bs
    else decide (a.toNat < b.toNat)

/-- Default-ignorable code points that the default collation used by
`localeCompare` treats as absent (soft hyphen, zero-width characters,
byte-order mark): two strings differing only in these compare as
equal. -/
def collationIgnorable (c : Char) : Bool :=
  c = Char.ofNat 0xad || c = Char.ofNat 0x200b || c = Char.ofNat 0x200c ||
  c = Char.ofNat 0x200d || c = Char.ofNat 0xfeff

/-- The collation key of a string: its characters with the ignorable
code points removed.  ECMA-262 requires `localeCompare` to return 0 on
distinct canonically-equivalent strings, and the default collation
likewise ties strings that differ only by ignorable characters; the
key captures the load-bearing consequence that distinct strings can
compare as equal in both directions.  (Full ICU collation weights are
not modelled: keys are compared by code point.) -/
def collationKey (s : List Char) : List Char :=
  s.filter (fun c => !(collationIgnorable c))

/-- `s.localeCompare(t) <= 0`, modelled on collation keys: a total
preorder that ties distinct strings with equal keys, as the real
comparator does. -/
def strKeyLe (s t : String) : Prop :=
  lexLeChars (collationKey s.data) (collationKey t.data) = true

instance : DecidableRel strKeyLe := fun s t =>
  inferInstanceAs (Decidable (lexLeChars (collationKey s.data) (collationKey t.data) = true))

/-- The comparator of lines 192-196: elements are ordered by
`localeCompare` of their serialized forms; elements whose serialized
forms differ only by collation-ignorable characters tie. -/
def sigLeP (a b : Json) : Prop :=
  strKeyLe (stringify a) (stringify b)

instance : DecidableRel sigLeP := fun a b =>
  inferInstanceAs (Decidable (strKeyLe (stringify a) (stringify b)))

/-- `createDataSignature` (lines 190-198): copy the array, sort its
elements by their serialized forms, serialize the sorted array.  The
argument is the element list of the data array (the source spreads the
array it is given, which is always an array here); the sort is a
stable sort consistent with the comparator, as `Array.prototype.sort`
guarantees, so elements the comparator ties stay in input order. -/
def createDataSignature (data : List Json) : String :=
  stringify (Json.arr (data.insertionSort sigLeP))

/-! ## Backtracking regular-expression matcher

Each JS regex used by the source is transcribed into a matcher that
enumerates the (remaining input, captures) pairs in exactly the order
the backtracking JS engine would try them; the head of the list is the
match the engine reports. -/

/-- Capture environment: group number to captured characters; the most
recent binding of a group shadows older ones. -/
abbrev Caps := List (Nat × List Char)

/-- Captured text of group `n` (empty if the group never matched). -/
def getCap (n : Nat) (caps : Caps) : List Char :=
  (caps.lookup n).getD []

/-- A matcher consumes a prefix of the input and yields the possible
continuation states in backtracking order. -/
abbrev RxM := List Char → Caps → List (List Char × Caps)

/-- The empty pattern. -/
def rxEps : RxM := fun cs caps => [(cs, caps)]

/-- End-of-input anchor `$` (no `m` flag anywhere in the source). -/
def rxEnd : RxM := fun cs caps => if cs.isEmpty then [(cs, caps)] else []

/-- A character class. -/
def rxCls (p : Char → Bool) : RxM := fun cs caps =>
  match cs with
  | c :: rest => if p c then [(rest, caps)] else []
  | [] => []

/-- A literal character. -/
def rxChar (c : Char) : RxM := rxCls (fun c' => c' = c)

/-- A literal character sequence. -/
def rxLit (s : List Char) : RxM := fun cs caps =>
  if startsWithChars s cs then [(cs.drop s.length, caps)] else []

/-- A case-insensitive literal (for the `/i` patterns). -/
def rxLitCI (s : List Char) : RxM := fun cs caps =>
  if (cs.take s.length).map toLowerChar = s.map toLowerChar then
    [(cs.drop s.length, caps)]
  else []

/-- Concatenation. -/
def rxSeq (a b : RxM) : RxM := fun cs caps =>
  (a cs caps).flatMap (fun p => b p.1 p.2)

/-- Alternation (left alternative preferred). -/
def rxAlt (a b : RxM) : RxM := fun cs caps => a cs caps ++ b cs caps

/-- Greedy `*`: more iterations are preferred; an iteration that fails
to consume input ends the loop, as in the JS engine.  `fuel` bounds the
iteration count and is instantiated with the input length. -/
def rxStarG : Nat → RxM → RxM
  | 0, _ => rxEps
  | fuel + 1, a => fun cs caps =>
    ((a cs caps).flatMap (fun p =>
      if p.1.length < cs.length then rxStarG fuel a p.1 p.2 else [p])) ++ [(cs, caps)]

/-- Lazy `*?`: fewer iterations are preferred. -/
def rxStarL : Nat → RxM → RxM
  | 0, _ => rxEps
  | fuel + 1, a => fun cs caps =>
    (cs, caps) :: ((a cs caps).flatMap (fun p =>
      if p.1.length < cs.length then rxStarL fuel a p.1 p.2 else []))

/-- Greedy `+`. -/
def rxPlusG (fuel : Nat) (a : RxM) : RxM := rxSeq a (rxStarG fuel a)

/-- Lazy `+?`. -/
def rxPlusL (fuel : Nat) (a : RxM) : RxM := rxSeq a (rxStarL fuel a)

/-- Greedy `?`. -/
def rxOptG (a : RxM) : RxM := fun cs caps => a cs caps ++ [(cs, caps)]

/-- Bounded repetition `{0,n}` (greedy when `greedy`, else lazy). -/
def rxRepMax : Nat → Bool → RxM → RxM
  | 0, _, _ => rxEps
  | n + 1, greedy, a => fun cs caps =>
    let more := (a cs caps).flatMap (fun p =>
      if p.1.length < cs.length then rxRepMax n greedy a p.1 p.2 else [p])
    if greedy then more ++ [(cs, caps)] else (cs, caps) :: more

/-- A capturing group: records the consumed span as group `n`. -/
def rxGroup (n : Nat) (a : RxM) : RxM := fun cs caps =>
  (a cs caps).map (fun p => (p.1, (n, cs.take (cs.length - p.1.length)) :: p.2))

/-- First match attempt at the current position (the JS engine reports
the first alternative in backtracking order). -/
def matchHere (m : RxM) (cs : List Char) : Option (List Char × Caps) :=
  (m cs []).head?

/-- Global scan, as the `while (re.exec(text))` loops and
`String.prototype.match` with `/g` do: repeatedly find the leftmost
match, then continue after it.  Returns (start index, matched text,
captures) for each match.  (The patterns used here cannot match the
empty string; a zero-width match advances by one as a safeguard.) -/
def scanAll (mk : Nat → RxM) : Nat → Nat → List Char → List (Nat × List Char × Caps)
  | 0, _, _ => []
  | _, _, [] => []
  | fuel + 1, idx, cs@(_ :: rest) =>
    match matchHere (mk (cs.length + 1)) cs with
    | some (rest', caps) =>
      let len := cs.length - rest'.length
      if len = 0 then scanAll mk fuel (idx + 1) rest
      else (idx, cs.take len, caps) :: scanAll mk fuel (idx + len) (cs.drop len)
    | none => scanAll mk fuel (idx + 1) rest

/-- All matches of a pattern over a text. -/
def scanText (mk : Nat → RxM) (text : List Char) : List (Nat × List Char × Caps) :=
  scanAll mk (text.length + 1) 0 text

/-- Leftmost match, as non-global `String.prototype.match`: the first
position with a match wins; returns its captures. -/
def firstMatch (mk : Nat → RxM) : Nat → List Char → Option Caps
  | 0, _ => none
  | fuel + 1, cs =>
    match matchHere (mk (cs.length + 1)) cs with
    | some (_, caps) => some caps
    | none =>
      match cs with
      | [] => none
      | _ :: rest => firstMatch mk fuel rest

/-- Leftmost match over a text. -/
def matchText (mk : Nat → RxM) (text : List Char) : Option Caps :=
  firstMatch mk (text.length + 1) text

/-! ## `parseFloat` and `JSON.parse` -/

/-- Decimal digits to a natural number. -/
def digitsToNat (ds : List Char) : Nat :=
  ds.foldl (fun acc c => acc * 10 + (c.toNat - 48)) 0

/-- `parseFloat`: skip leading whitespace, optional sign, then the
longest valid decimal prefix (also accepting `Infinity`); `NaN` when no
digits are found. -/
def parseFloatJS (s : List Char) : JSNum :=
  let t0 := s.dropWhile jsWhitespace
  let neg := t0.head? = some '-'
  let t := if t0.head? = some '-' || t0.head? = some '+' then t0.drop 1 else t0
  if startsWithChars ("Infinity".data) t then (if neg then JSNum.negInf else JSNum.inf)
  else
    let intDigits := t.takeWhile Char.isDigit
    let t1 := t.drop intDigits.length
    let fracDigits := if t1.head? = some '.' then (t1.drop 1).takeWhile Char.isDigit else []
    let t2 := if t1.head? = some '.' then (t1.drop 1).dropWhile Char.isDigit else t1
    if intDigits.isEmpty && fracDigits.isEmpty then JSNum.nan
    else
      let expVal : Int :=
        if t2.head? = some 'e' || t2.head? = some 'E' then
          let r := t2.drop 1
          let esign : Int := if r.head? = some '-' then -1 else 1
          let r' := if r.head? = some '-' || r.head? = some '+' then r.drop 1 else r
          let eds := r'.takeWhile Char.isDigit
          if eds.isEmpty then 0 else esign * (digitsToNat eds : Int)
        else 0
      let base : ℚ :=
        mkRat (Int.ofNat (digitsToNat intDigits * 10 ^ fracDigits.length + digitsToNat fracDigits))
          (10 ^ fracDigits.length)
      let signed : ℚ := if neg then -base else base
      let scaled : ℚ :=
        if 0 ≤ expVal then mkRat (signed.num * Int.ofNat (10 ^ expVal.toNat)) signed.den
        else mkRat signed.num (signed.den * 10 ^ (-expVal).toNat)
      JSNum.finite scaled

/-- JSON insignificant whitespace (space, tab, newline, carriage
return — stricter than `\s`, as in the JSON grammar). -/
def jsonWs (c : Char) : Bool :=
  c = ' ' || c = '\t' || c = '\n' || c = '\r'

/-- Value of a hexadecimal digit, or 999 for an invalid one. -/
def hexVal (c : Char) : Nat :=
  if '0' ≤ c && c ≤ '9' then c.toNat - 48
  else if 'a' ≤ c && c ≤ 'f' then c.toNat - 87
  else if 'A' ≤ c && c ≤ 'F' then c.toNat - 55
  else 999

/-- JSON string body parser (after the opening quote), with the JSON
escape sequences; unescaped control characters are rejected, as
`JSON.parse` does. -/
def jparseString (acc : List Char) : List Char → Except String (String × List Char)
  | [] => Except.error "unterminated string"
  | c :: r =>
    if c = '"' then Except.ok (String.mk acc.reverse, r)
    else if c = '\\' then
      match r with
      | [] => Except.error "unterminated escape"
      | e :: r2 =>
        if e = '"' then jparseString ('"' :: acc) r2
        else if e = '\\' then jparseString ('\\' :: acc) r2
        else if e = '/' then jparseString ('/' :: acc) r2
        else if e = 'n' then jparseString ('\n' :: acc) r2
        else if e = 't' then jparseString ('\t' :: acc) r2
        else if e = 'r' then jparseString ('\r' :: acc) r2
        else if e = 'b' then jparseString (Char.ofNat 8 :: acc) r2
        else if e = 'f' then jparseString (Char.ofNat 12 :: acc) r2
        else if e = 'u' then
          match r2 with
          | a :: b :: c2 :: d :: r3 =>
            let v := hexVal a * 4096 + hexVal b * 256 + hexVal c2 * 16 + hexVal d
            if 65535 < v then Except.error "bad unicode escape"
            else jparseString (Char.ofNat v :: acc) r3
          | _ => Except.error "bad unicode escape"
        else Except.error "bad escape"
    else if c.toNat < 32 then Except.error "control character in string"
    else jparseString (c :: acc) r

/-- JSON number parser (strict JSON grammar: optional minus, integer
part without leading zeros, optional fraction, optional exponent). -/
def jparseNumber (cs : List Char) : Except String (Json × List Char) :=
  let neg := cs.head? = some '-'
  let t := if neg then cs.drop 1 else cs
  let intDigits := t.takeWhile Char.isDigit
  if intDigits.isEmpty then Except.error "expected digits"
  else if intDigits.head? = some '0' && 1 < intDigits.length then Except.error "leading zero"
  else
    let t1 := t.drop intDigits.length
    let hasFrac := t1.head? = some '.'
    let fracDigits := if hasFrac then (t1.drop 1).takeWhile Char.isDigit else []
    if hasFrac && fracDigits.isEmpty then Except.error "expected fraction digits"
    else
      let t2 := if hasFrac then (t1.drop 1).dropWhile Char.isDigit else t1
      let hasExp := t2.head? = some 'e' || t2.head? = some 'E'
      let r := t2.drop 1
      let esign : Int := if r.head? = some '-' then -1 else 1
      let r' := if r.head? = some '-' || r.head? = some '+' then r.drop 1 else r
      let expDigits := if hasExp then r'.takeWhile Char.isDigit else []
      if hasExp && expDigits.isEmpty then Except.error "expected exponent digits"
      else
        let t3 := if hasExp then r'.dropWhile Char.isDigit else t2
        let expVal : Int := if hasExp then esign * (digitsToNat expDigits : Int) else 0
        let base : ℚ :=
          mkRat (Int.ofNat (digitsToNat intDigits * 10 ^ fracDigits.length + digitsToNat fracDigits))
            (10 ^ fracDigits.length)
        let signed : ℚ := if neg then -base else base
        let scaled : ℚ :=
          if 0 ≤ expVal then mkRat (signed.num * Int.ofNat (10 ^ expVal.toNat)) signed.den
          else mkRat signed.num (signed.den * 10 ^ (-expVal).toNat)
        Except.ok (Json.num (JSNum.finite scaled), t3)

/-- Assignment `obj[k] = v` during object literal construction: a
repeated key overwrites the value but keeps the original position. -/
def objInsert (fs : List (String × Json)) (k : String) (v : Json) : List (String × Json) :=
  if fs.any (fun kv => kv.1 = k) then fs.map (fun kv => if kv.1 = k then (k, v) else kv)
  else fs ++ [(k, v)]

mutual

/-- JSON value parser (fuel-bounded recursive descent; the fuel is
instantiated with the input length, which every recursive call has
consumed at least one character against). -/
def jparseVal : Nat → List Char → Except String (Json × List Char)
  | 0, _ => Except.error "out of fuel"
  | fuel + 1, cs =>
    match cs.dropWhile jsonWs with
    | [] => Except.error "unexpected end of input"
    | c :: rest =>
      if c = 'n' then
        if startsWithChars ("ull".data) rest then Except.ok (Json.null, rest.drop 3)
        else Except.error "bad literal"
      else if c = 't' then
        if startsWithChars ("rue".data) rest then Except.ok (Json.bool true, rest.drop 3)
        else Except.error "bad literal"
      else if c = 'f' then
        if startsWithChars ("alse".data) rest then Except.ok (Json.bool false, rest.drop 4)
        else Except.error "bad literal"
      else if c = '"' then
        match jparseString [] rest with
        | Except.error e => Except.error e
        | Except.ok (s, r) => Except.ok (Json.str s, r)
      else if c = '[' then
        let peek := rest.dropWhile jsonWs
        if peek.head? = some ']' then Except.ok (Json.arr [], peek.drop 1)
        else
          match jparseItems fuel rest with
          | Except.error e => Except.error e
          | Except.ok (xs, r2) => Except.ok (Json.arr xs, r2)
      else if c = lbrace then
        let peek := rest.dropWhile jsonWs
        if peek.head? = some rbrace then Except.ok (Json.obj [], peek.drop 1)
        else
          match jparseFields fuel rest with
          | Except.error e => Except.error e
          | Except.ok (fs, r2) =>
            Except.ok (Json.obj (fs.foldl (fun acc kv => objInsert acc kv.1 kv.2) []), r2)
      else if c = '-' || c.isDigit then jparseNumber (c :: rest)
      else Except.error "unexpected character"

/-- Array elements after the opening bracket (at least one element). -/
def jparseItems : Nat → List Char → Except String (List Json × List Char)
  | 0, _ => Except.error "out of fuel"
  | fuel + 1, cs =>
    match jparseVal fuel cs with
    | Except.error e => Except.error e
    | Except.ok (v, r) =>
      match r.dropWhile jsonWs with
      | ',' :: r2 =>
        (match jparseItems fuel r2 with
         | Except.error e => Except.error e
         | Except.ok (xs, r3) => Except.ok (v :: xs, r3))
      | ']' :: r2 => Except.ok ([v], r2)
      | _ => Except.error "expected comma or closing bracket"

/-- Object members after the opening brace (at least one member). -/
def jparseFields : Nat → List Char → Except String (List (String × Json) × List Char)
  | 0, _ => Except.error "out of fuel"
  | fuel + 1, cs =>
    match cs.dropWhile jsonWs with
    | '"' :: r =>
      (match jparseString [] r with
       | Except.error e => Except.error e
       | Except.ok (k, r1) =>
         match r1.dropWhile jsonWs with
         | ':' :: r2 =>
           (match jparseVal fuel r2 with
            | Except.error e => Except.error e
            | Except.ok (v, r3) =>
              match r3.dropWhile jsonWs with
              | c4 :: r4 =>
                if c4 = ',' then
                  match jparseFields fuel r4 with
                  | Except.error e => Except.error e
                  | Except.ok (fs, r5) => Except.ok ((k, v) :: fs, r5)
                else if c4 = rbrace then Except.ok ([(k, v)], r4)
                else Except.error "expected comma or closing brace"
              | [] => Except.error "unexpected end of object")
         | _ => Except.error "expected colon")
    | _ => Except.error "expected string key"

end

/-- `JSON.parse`: parse one value and require only whitespace after
it; any failure models a thrown `SyntaxError`. -/
def jsonParse (s : List Char) : Except String Json :=
  match jparseVal (s.length + 1) s with
  | Except.error e => Except.error e
  | Except.ok (v, r) =>
    if (r.dropWhile jsonWs).isEmpty then Except.ok v
    else Except.error "unexpected trailing characters"

/-! ## The concrete patterns of the source -/

/-- `[\s\S]`. -/
def anyCls : Char → Bool := fun _ => true

/-- `[^\n]`. -/
def notNl (c : Char) : Bool := !(c = '\n')

/-- `\w` (ASCII word character). -/
def wordChar (c : Char) : Bool :=
  ('a' ≤ c && c ≤ 'z') || ('A' ≤ c && c ≤ 'Z') || c.isDigit || c = '_'

/-- `[\w\s]`. -/
def wordOrSpace (c : Char) : Bool := wordChar c || jsWhitespace c

/-- Pattern 0, line 17: ```` /```json\s*\n([\s\S]*?)\n```/g ````. -/
def codeBlockRx (fuel : Nat) : RxM :=
  rxSeq (rxLit (("```json").data))
    (rxSeq (rxStarG fuel (rxCls jsWhitespace))
      (rxSeq (rxChar '\n')
        (rxSeq (rxGroup 1 (rxStarL fuel (rxCls anyCls)))
          (rxSeq (rxChar '\n') (rxLit (("```").data))))))

/-- One `\{[^[\]]*\}` object literal of pattern 1. -/
def inlineObjRx (fuel : Nat) : RxM :=
  rxSeq (rxChar lbrace)
    (rxSeq (rxStarG fuel (rxCls (fun c => !(c = '[') && !(c = ']'))))
      (rxChar rbrace))

/-- Pattern 1, line 65: `/\[\s*\{[^[\]]*\}\s*(?:,\s*\{[^[\]]*\}\s*)*\]/g`. -/
def inlineArrayRx (fuel : Nat) : RxM :=
  rxSeq (rxChar '[')
    (rxSeq (rxStarG fuel (rxCls jsWhitespace))
      (rxSeq (inlineObjRx fuel)
        (rxSeq (rxStarG fuel (rxCls jsWhitespace))
          (rxSeq
            (rxStarG fuel
              (rxSeq (rxChar ',')
                (rxSeq (rxStarG fuel (rxCls jsWhitespace))
                  (rxSeq (inlineObjRx fuel) (rxStarG fuel (rxCls jsWhitespace))))))
            (rxChar ']')))))

/-- One `\|[^\n]+\|\n?` body row of the table pattern. -/
def tableRowRx (fuel : Nat) : RxM :=
  rxSeq (rxChar '|')
    (rxSeq (rxPlusG fuel (rxCls notNl))
      (rxSeq (rxChar '|') (rxOptG (rxChar '\n'))))

/-- Line 321: `/\|([^\n]+)\|[\s\S]+?\n((?:\|[^\n]+\|\n?)+)/g`. -/
def tableRx (fuel : Nat) : RxM :=
  rxSeq (rxChar '|')
    (rxSeq (rxGroup 1 (rxPlusG fuel (rxCls notNl)))
      (rxSeq (rxChar '|')
        (rxSeq (rxPlusL fuel (rxCls anyCls))
          (rxSeq (rxChar '\n')
            (rxGroup 2 (rxPlusG fuel (tableRowRx fuel)))))))

/-- `#{1,3}\s+|\*\*`, the section opener shared by the list pattern and
the near-data title pattern. -/
def sectionOpenRx (fuel : Nat) : RxM :=
  rxAlt
    (rxSeq
      (rxAlt (rxLit (("###").data)) (rxAlt (rxLit (("##").data)) (rxLit (("#").data))))
      (rxPlusG fuel (rxCls jsWhitespace)))
    (rxLit (("**").data))

/-- `[-•\d.]`, the bullet class of the list patterns. -/
def bulletCls (c : Char) : Bool :=
  c = '-' || c = '•' || c.isDigit || c = '.'

/-- One `[-•\d.]\s+[^\n]+:\s*[\d,]+[^\n]*\n?` item line of the section
pattern. -/
def itemLineRx (fuel : Nat) : RxM :=
  rxSeq (rxCls bulletCls)
    (rxSeq (rxPlusG fuel (rxCls jsWhitespace))
      (rxSeq (rxPlusG fuel (rxCls notNl))
        (rxSeq (rxChar ':')
          (rxSeq (rxStarG fuel (rxCls jsWhitespace))
            (rxSeq (rxPlusG fuel (rxCls (fun c => c.isDigit || c = ',')))
              (rxSeq (rxStarG fuel (rxCls notNl)) (rxOptG (rxChar '\n'))))))))

/-- Line 361:
`/(?:#{1,3}\s+|\*\*)([\w\s]+?)(?:\*\*)?[\s\S]{0,50}?((?:[-•\d.]\s+[^\n]+:\s*[\d,]+[^\n]*\n?){3,})/g`. -/
def sectionRx (fuel : Nat) : RxM :=
  rxSeq (sectionOpenRx fuel)
    (rxSeq (rxGroup 1 (rxPlusL fuel (rxCls wordOrSpace)))
      (rxSeq (rxOptG (rxLit (("**").data)))
        (rxSeq (rxRepMax 50 false (rxCls anyCls))
          (rxGroup 2
            (rxSeq (itemLineRx fuel)
              (rxSeq (itemLineRx fuel)
                (rxSeq (itemLineRx fuel) (rxStarG fuel (itemLineRx fuel)))))))))

/-- Line 369: `/[-•\d.]\s+([^:]+?):\s*([\d,]+)/g`. -/
def itemRx (fuel : Nat) : RxM :=
  rxSeq (rxCls bulletCls)
    (rxSeq (rxPlusG fuel (rxCls jsWhitespace))
      (rxSeq (rxGroup 1 (rxPlusL fuel (rxCls (fun c => !(c = ':')))))
        (rxSeq (rxChar ':')
          (rxSeq (rxStarG fuel (rxCls jsWhitespace))
            (rxGroup 2 (rxPlusG fuel (rxCls (fun c => c.isDigit || c = ','))))))))

/-- Line 268: `/\*\*([^*]+)\*\*\s*$/`. -/
def boldRx (fuel : Nat) : RxM :=
  rxSeq (rxLit (("**").data))
    (rxSeq (rxGroup 1 (rxPlusG fuel (rxCls (fun c => !(c = '*')))))
      (rxSeq (rxLit (("**").data))
        (rxSeq (rxStarG fuel (rxCls jsWhitespace)) rxEnd)))

/-- Line 275: `/#{1,3}\s+([^\n]+)\s*$/`. -/
def headingRx (fuel : Nat) : RxM :=
  rxSeq (rxAlt (rxLit (("###").data)) (rxAlt (rxLit (("##").data)) (rxLit (("#").data))))
    (rxSeq (rxPlusG fuel (rxCls jsWhitespace))
      (rxSeq (rxGroup 1 (rxPlusG fuel (rxCls notNl)))
        (rxSeq (rxStarG fuel (rxCls jsWhitespace)) rxEnd)))

/-- Line 282: `/([^:\n]+):\s*$/`. -/
def colonRx (fuel : Nat) : RxM :=
  rxSeq (rxGroup 1 (rxPlusG fuel (rxCls (fun c => !(c = ':') && !(c = '\n')))))
    (rxSeq (rxChar ':')
      (rxSeq (rxStarG fuel (rxCls jsWhitespace)) rxEnd))

/-- Line 302: `/(?:#{1,3}\s+|\*\*)([\w\s]+?)(?:\*\*)?(?:\n|$)/`. -/
def nearHeadingRx (fuel : Nat) : RxM :=
  rxSeq (sectionOpenRx fuel)
    (rxSeq (rxGroup 1 (rxPlusL fuel (rxCls wordOrSpace)))
      (rxSeq (rxOptG (rxLit (("**").data)))
        (rxAlt (rxChar '\n') rxEnd)))

/-- Line 308: `/(?:\d+\.|[-•])\s+\*\*([^*]+)\*\*/`. -/
def nearListRx (fuel : Nat) : RxM :=
  rxSeq
    (rxAlt (rxSeq (rxPlusG fuel (rxCls Char.isDigit)) (rxChar '.'))
      (rxCls (fun c => c = '-' || c = '•')))
    (rxSeq (rxPlusG fuel (rxCls jsWhitespace))
      (rxSeq (rxLit (("**").data))
        (rxSeq (rxGroup 1 (rxPlusG fuel (rxCls (fun c => !(c = '*')))))
          (rxLit (("**").data)))))

/-- Line 210: `/^(.*?)\s*\(TYPE:\s*(\w+)\)\s*$/i` (the `.` class
excludes line terminators; the pattern is start-anchored, so it is
tried at position 0 only). -/
def typeRx1 (fuel : Nat) : RxM :=
  rxSeq (rxGroup 1 (rxStarL fuel (rxCls notNl)))
    (rxSeq (rxStarG fuel (rxCls jsWhitespace))
      (rxSeq (rxLitCI (("(TYPE:").data))
        (rxSeq (rxStarG fuel (rxCls jsWhitespace))
          (rxSeq (rxGroup 2 (rxPlusG fuel (rxCls wordChar)))
            (rxSeq (rxChar ')')
              (rxSeq (rxStarG fuel (rxCls jsWhitespace)) rxEnd))))))

/-- Line 220: `/^(.*?)\s*\[(\w+)\]\s*$/i`. -/
def typeRx2 (fuel : Nat) : RxM :=
  rxSeq (rxGroup 1 (rxStarL fuel (rxCls notNl)))
    (rxSeq (rxStarG fuel (rxCls jsWhitespace))
      (rxSeq (rxChar '[')
        (rxSeq (rxGroup 2 (rxPlusG fuel (rxCls wordChar)))
          (rxSeq (rxChar ']')
            (rxSeq (rxStarG fuel (rxCls jsWhitespace)) rxEnd)))))

/-- All fenced-block matches: (match index, capture 1). -/
def blockMatches (text : List Char) : List (Nat × List Char) :=
  (scanText codeBlockRx text).map (fun r => (r.1, getCap 1 r.2.2))

/-- All inline-array matches (the matched substrings, as
`String.prototype.match` with `/g` returns). -/
def inlineMatches (text : List Char) : List (List Char) :=
  (scanText inlineArrayRx text).map (fun r => r.2.1)

/-- All table matches: (matched text, capture 1, capture 2). -/
def tableMatches (text : List Char) : List (List Char × List Char × List Char) :=
  (scanText tableRx text).map (fun r => (r.2.1, getCap 1 r.2.2, getCap 2 r.2.2))

/-- All list-section matches: (capture 1, capture 2). -/
def sectionMatches (text : List Char) : List (List Char × List Char) :=
  (scanText sectionRx text).map (fun r => (getCap 1 r.2.2, getCap 2 r.2.2))

/-- All `name: value` item matches inside a section: (capture 1,
capture 2). -/
def itemMatches (content : List Char) : List (List Char × List Char) :=
  (scanText itemRx content).map (fun r => (getCap 1 r.2.2, getCap 2 r.2.2))

/-! ## TitleTypeResolver and ChartTypeClassifier -/

/-- The synonym table of `normalizeChartType` (lines 240-256). -/
def typeMap : List (String × String) :=
  [("bar", "bar"), ("column", "bar"), ("line", "line"), ("pie", "pie"),
   ("donut", "pie"), ("area", "area"), ("scatter", "scatter"),
   ("scatterplot", "scatter"), ("radar", "radar"), ("table", "table"),
   ("heatmap", "heatmap"), ("gauge", "gauge"), ("funnel", "funnel"),
   ("treemap", "treemap"), ("histogram", "histogram")]

/-- `normalizeChartType` (lines 236-259): lower-case, trim, look up in
the synonym table, default `bar`. -/
def normalizeChartType (typeStr : String) : String :=
  let normalized := String.mk (trimChars (typeStr.data.map toLowerChar))
  (typeMap.lookup normalized).getD "bar"

/-- `extractTitleAndType` (lines 204-231): returns the title and the
optional explicit type. -/
def extractTitleAndType (titleStr : String) : String × Option String :=
  if titleStr = "" then ("Chart", none)
  else
    let cs := titleStr.data
    match matchHere (typeRx1 (cs.length + 1)) cs with
    | some (_, caps) =>
      (String.mk (trimChars (getCap 1 caps)), some (normalizeChartType (String.mk (getCap 2 caps))))
    | none =>
      match matchHere (typeRx2 (cs.length + 1)) cs with
      | some (_, caps) =>
        (String.mk (trimChars (getCap 1 caps)), some (normalizeChartType (String.mk (getCap 2 caps))))
      | none => (String.mk (trimChars cs), none)

/-- The `replace(/^Chart Title:\s*/i, '')` of line 271. -/
def stripChartTitle (s : List Char) : List Char :=
  if (s.take 12).map toLowerChar = ("chart title:").data then
    (s.drop 12).dropWhile jsWhitespace
  else s

/-- `extractTitleBeforeCodeBlock` (lines 264-289): look back up to 150
characters, try bold text, then a heading, then a colon label, each
anchored at the end of the window. -/
def extractTitleBeforeCodeBlock (text : List Char) (idx : Nat) : Option (List Char) :=
  let beforeBlock := lookback text idx 150
  match matchText boldRx beforeBlock with
  | some caps => some (stripChartTitle (trimChars (getCap 1 caps)))
  | none =>
    match matchText headingRx beforeBlock with
    | some caps => some (trimChars (getCap 1 caps))
    | none =>
      match matchText colonRx beforeBlock with
      | some caps => some (trimChars (getCap 1 caps))
      | none => none

/-- `extractTitleNearData` (lines 294-314): find the first occurrence
of the data block text, look back up to 200 characters, try a
heading/bold pattern then a listed bold pattern. -/
def extractTitleNearData (text dataBlock : List Char) : Option (List Char) :=
  match indexOfSub text dataBlock with
  | none => none
  | some idx =>
    let beforeData := lookback text idx 200
    match matchText nearHeadingRx beforeData with
    | some caps => some (trimChars (getCap 1 caps))
    | none =>
      match matchText nearListRx beforeData with
      | some caps => some (trimChars (getCap 1 caps))
      | none => none

/-- `/date|time|month|year|day|period/i.test(k)`: case-insensitive
substring test. -/
def timeRelatedKey (k : String) : Bool :=
  let lk := k.data.map toLowerChar
  containsSub lk (("date").data) || containsSub lk (("time").data) ||
  containsSub lk (("month").data) || containsSub lk (("year").data) ||
  containsSub lk (("day").data) || containsSub lk (("period").data)

/-- `detectChartType` (lines 429-453), on the element list of the data
array. -/
def detectChartType (data : List Json) : String :=
  match data with
  | [] => "bar"
  | firstItem :: _ =>
    let keys := jsKeys firstItem
    if keys.contains "x" && keys.contains "y" then "scatter"
    else if keys.any timeRelatedKey then "line"
    else if 5 < keys.length then "table"
    else "bar"

/-! ## LayoutAssigner and ChartSpec assembly -/

/-- A grid rectangle. -/
structure Pos where
  x : Nat
  y : Nat
  w : Nat
  h : Nat
deriving DecidableEq

/-- `calculatePosition` (lines 458-468). -/
def calculatePosition (index : Nat) : Pos :=
  Pos.mk ((index % 2) * 6) ((index / 2) * 4) 6 4

/-- `getDefaultColors` (lines 473-475). -/
def getDefaultColors : List String :=
  ["#8B5CF6", "#3B82F6", "#10B981", "#F59E0B", "#EF4444", "#EC4899"]

/-- The `options` map of a chart. -/
structure ChartOptions where
  showLegend : Bool
  showGrid : Bool
deriving DecidableEq

/-- An output chart specification; `colors` is the `style.colors`
sequence, and `data` the element list of the chart's data array. -/
structure ChartSpec where
  id : String
  type : String
  title : String
  data : List Json
  position : Pos
  options : ChartOptions
  colors : List String

/-- ``chart_${Date.now()}_${charts.length}`` (`Date.now()` is modelled
by the `now` parameter threaded through one invocation). -/
def chartId (now idx : Nat) : String :=
  "chart_" ++ toString now ++ "_" ++ toString idx

/-- `MAX_CHARTS` (line 12). -/
def MAX_CHARTS : Nat := 8

/-- `titleExpr || fallback`: the fallback is used when the extractor
returned nothing or an empty (falsy) string. -/
def orFallback (t : Option (List Char)) (fb : String) : String :=
  match t with
  | some s => if s.isEmpty then fb else String.mk s
  | none => fb

/-- Accumulator of the two dedup-checked loops: accepted charts and the
set of seen signatures. -/
structure PState where
  charts : List ChartSpec
  seen : List String

/-- The shared accept path of the fenced-block loop (lines 31-58) and
the inline-array loop (lines 79-104), which are verbatim copies of each
other except for the title lookup: validate, reject a seen signature,
resolve title and type, push the assembled chart.  `titleOpt` is the
result of the loop's title extractor. -/
def acceptChart (now : Nat) (st : PState) (d : Json) (titleOpt : Option (List Char)) : PState :=
  if !(isValidChartData d) then st
  else
    match d with
    | Json.arr l =>
      let sig := createDataSignature l
      if st.seen.contains sig then st
      else
        let titleRaw := orFallback titleOpt ("Chart " ++ toString (st.charts.length + 1))
        let tt := extractTitleAndType titleRaw
        let chartType := match tt.2 with
          | some t => t
          | none => detectChartType l
        PState.mk
          (st.charts ++
            [ChartSpec.mk (chartId now st.charts.length) chartType tt.1 l
              (calculatePosition st.charts.length) (ChartOptions.mk true true) getDefaultColors])
          (st.seen ++ [sig])
    | _ => st

/-- One iteration of the fenced-block loop (lines 20-62): parse the
trimmed capture, catching a parse failure. -/
def stepBlock (now : Nat) (text : List Char) (st : PState) (m : Nat × List Char) : PState :=
  match jsonParse (trimChars m.2) with
  | Except.error _ => st
  | Except.ok d => acceptChart now st d (extractTitleBeforeCodeBlock text m.1)

/-- The fenced-block loop, including the `break` when `MAX_CHARTS` is
reached (lines 22-25). -/
def processBlocks (now : Nat) (text : List Char) : List (Nat × List Char) → PState → PState
  | [], st => st
  | m :: rest, st =>
    if MAX_CHARTS ≤ st.charts.length then st
    else processBlocks now text rest (stepBlock now text st m)

/-- One iteration of the inline-array loop (lines 70-107). -/
def stepInline (now : Nat) (text : List Char) (st : PState) (m : List Char) : PState :=
  match jsonParse m with
  | Except.error _ => st
  | Except.ok d => acceptChart now st d (extractTitleNearData text m)

/-- The inline-array loop with its `break` (lines 68-109). -/
def processInline (now : Nat) (text : List Char) : List (List Char) → PState → PState
  | [], st => st
  | m :: rest, st =>
    if MAX_CHARTS ≤ st.charts.length then st
    else processInline now text rest (stepInline now text st m)

/-- Patterns 0 and 1 of the pipeline: the fenced-block loop followed by
the inline-array loop, from the empty state. -/
def phase01 (now : Nat) (text : List Char) : PState :=
  processInline now text (inlineMatches text)
    (processBlocks now text (blockMatches text) (PState.mk [] []))

/-! ## TableExtractor and BulletListExtractor -/

/-- One iteration of the table loop (lines 324-349). -/
def tableStep (now : Nat) (text : List Char) (charts : List ChartSpec)
    (m : List Char × List Char × List Char) : List ChartSpec :=
  let headers := ((splitOnChar '|' m.2.1).map trimChars).filter (fun h => !h.isEmpty)
  let rows := (splitOnChar '\n' m.2.2).filter
    (fun r => r.contains '|' && !(containsSub r (("---").data)))
  if 0 < rows.length && 2 ≤ headers.length then
    let data := (rows.map (fun row =>
      let cells := ((splitOnChar '|' row).map trimChars).filter (fun c => !c.isEmpty)
      let name := (cells.get? 0).getD []
      let v := match cells.get? 1 with
        | some c => parseFloatJS c
        | none => JSNum.nan
      let value := if truthyNum v then v else JSNum.finite 0
      (name, value))).filter (fun nv => !nv.1.isEmpty && truthyNum nv.2)
    if 0 < data.length then
      charts ++
        [ChartSpec.mk (chartId now charts.length) "bar"
          (orFallback (extractTitleNearData text m.1) "Data Table")
          (data.map (fun nv => Json.obj [("name", Json.str (String.mk nv.1)), ("value", Json.num nv.2)]))
          (calculatePosition charts.length) (ChartOptions.mk true true) getDefaultColors]
    else charts
  else charts

/-- `extractChartsFromTables` (lines 319-352). -/
def extractChartsFromTables (now : Nat) (text : List Char) : List ChartSpec :=
  (tableMatches text).foldl (tableStep now text) []

/-- One iteration of the bullet-list loop (lines 364-392). -/
def listStep (now : Nat) (charts : List ChartSpec) (m : List Char × List Char) :
    List ChartSpec :=
  let title := trimChars m.1
  let data := (itemMatches m.2).filterMap (fun it =>
    let name := trimChars it.1
    let value := parseFloatJS (it.2.filter (fun c => !(c = ',')))
    if !name.isEmpty && !(value = JSNum.nan) then some (name, value) else none)
  if 3 ≤ data.length then
    charts ++
      [ChartSpec.mk (chartId now charts.length) "bar"
        (if title.isEmpty then "Data Chart" else String.mk title)
        (data.map (fun nv => Json.obj [("name", Json.str (String.mk nv.1)), ("value", Json.num nv.2)]))
        (calculatePosition charts.length) (ChartOptions.mk false true) getDefaultColors]
  else charts

/-- `extractChartsFromLists` (lines 357-395). -/
def extractChartsFromLists (now : Nat) (text : List Char) : List ChartSpec :=
  (sectionMatches text).foldl (listStep now) []

/-! ## ExtractionPipeline (`parseChartsFromResponse`, lines 9-127) -/

/-- `parseChartsFromResponse`: patterns 0 and 1 with validation and
dedup, then tables and bullet lists truncated to the remaining slots. -/
def parseChartsFromResponse (now : Nat) (responseText : String) : List ChartSpec :=
  let text := responseText.data
  let st1 := phase01 now text
  let charts2 :=
    if st1.charts.length < MAX_CHARTS then
      st1.charts ++ (extractChartsFromTables now text).take (MAX_CHARTS - st1.charts.length)
    else st1.charts
  let charts3 :=
    if charts2.length < MAX_CHARTS then
      charts2 ++ (extractChartsFromLists now text).take (MAX_CHARTS - charts2.length)
    else charts2
  charts3

/-! ## Exception-transparent pipeline

The same pipeline in the `Except` monad, where `JSON.parse` genuinely
throws and the `try`/`catch` of the source (lines 27-61 and 76-107) is
the explicit handler `tryCatchE`; used to state that the engine never
propagates an exception to its caller. -/

/-- `try { x } catch (e) { h e }`. -/
def tryCatchE (x : Except String PState) (h : String → Except String PState) :
    Except String PState :=
  match x with
  | Except.error e => h e
  | Except.ok st => Except.ok st

/-- Fenced-block iteration with the source's `try`/`catch`. -/
def stepBlockE (now : Nat) (text : List Char) (st : PState) (m : Nat × List Char) :
    Except String PState :=
  tryCatchE
    (match jsonParse (trimChars m.2) with
     | Except.error e => Except.error e
     | Except.ok d => Except.ok (acceptChart now st d (extractTitleBeforeCodeBlock text m.1)))
    (fun _ => Except.ok st)

/-- Fenced-block loop in the `Except` monad. -/
def processBlocksE (now : Nat) (text : List Char) :
    List (Nat × List Char) → PState → Except String PState
  | [], st => Except.ok st
  | m :: rest, st =>
    if MAX_CHARTS ≤ st.charts.length then Except.ok st
    else
      match stepBlockE now text st m with
      | Except.error e => Except.error e
      | Except.ok st' => processBlocksE now text rest st'

/-- Inline-array iteration with the source's `try`/`catch`. -/
def stepInlineE (now : Nat) (text : List Char) (st : PState) (m : List Char) :
    Except String PState :=
  tryCatchE
    (match jsonParse m with
     | Except.error e => Except.error e
     | Except.ok d => Except.ok (acceptChart now st d (extractTitleNearData text m)))
    (fun _ => Except.ok st)

/-- Inline-array loop in the `Except` monad. -/
def processInlineE (now : Nat) (text : List Char) :
    List (List Char) → PState → Except String PState
  | [], st => Except.ok st
  | m :: rest, st =>
    if MAX_CHARTS ≤ st.charts.length then Except.ok st
    else
      match stepInlineE now text st m with
      | Except.error e => Except.error e
      | Except.ok st' => processInlineE now text rest st'

/-- The full pipeline in the `Except` monad. -/
def parseChartsE (now : Nat) (responseText : String) : Except String (List ChartSpec) :=
  let text := responseText.data
  match processBlocksE now text (blockMatches text) (PState.mk [] []) with
  | Except.error e => Except.error e
  | Except.ok st0 =>
    match processInlineE now text (inlineMatches text) st0 with
    | Except.error e => Except.error e
    | Except.ok st1 =>
      let charts2 :=
        if st1.charts.length < MAX_CHARTS then
          st1.charts ++ (extractChartsFromTables now text).take (MAX_CHARTS - st1.charts.length)
        else st1.charts
      let charts3 :=
        if charts2.length < MAX_CHARTS then
          charts2 ++ (extractChartsFromLists now text).take (MAX_CHARTS - charts2.length)
        else charts2
      Except.ok charts3

/-! ## Derived notions used in the statements -/

/-- Invariant of the dedup-checked loops: every accepted chart sits at
the position computed from its index, has validated data, and has its
signature recorded; no two accepted charts share a signature. -/
def StOK (st : PState) : Prop :=
  (∀ i (h : i < st.charts.length), (st.charts[i]).position = calculatePosition i) ∧
  (∀ c ∈ st.charts, isValidChartData (Json.arr c.data) = true) ∧
  (∀ c ∈ st.charts, createDataSignature c.data ∈ st.seen) ∧
  ((st.charts.map (fun c => createDataSignature c.data)).Pairwise (fun a b => ¬ a = b))

/-- Whether an element is judged by the generic shape rule of the
Validator (neither the name/value shape nor the x/y shape applies). -/
def genericShapeApplies (item : Json) : Bool :=
  let keys := jsKeys item
  !(keys.contains "name" && keys.contains "value") &&
  !(keys.contains "x" && keys.contains "y")

/-- Whether an element has at least one field whose value is a finite
number (the condition the spec states for the generic shape rule). -/
def hasFiniteNumericField (item : Json) : Bool :=
  (jsFields item).any (fun kv => isFiniteNumber (some kv.2))

/-- Whether an element's `value` field is absent or a finite number
(the reading under which the spec's zero-sum sentence is stated). -/
def valueAbsentOrFinite (item : Json) : Bool :=
  match jsGet item "value" with
  | none => true
  | some (Json.num (JSNum.finite _)) => true
  | _ => false

/-- The element's `value` field as a rational, read as 0 when absent
(the sum the spec's zero-sum sentence speaks about). -/
def valueFieldQ (item : Json) : ℚ :=
  match jsGet item "value" with
  | some (Json.num (JSNum.finite q)) => q
  | _ => 0

/-- The sum of the `value` fields of a candidate's elements. -/
def valueFieldSum (items : List Json) : ℚ :=
  (items.map valueFieldQ).sum

/-- Classification from the first record's field names, written from
the spec's sentence: both `x` and `y` present → scatter; any
time-related field name → line; more than 5 fields → table; else
bar. -/
def classifySpecKeys (keys : List String) : String :=
  if keys.contains "x" && keys.contains "y" then "scatter"
  else if keys.any timeRelatedKey then "line"
  else if 5 < keys.length then "table"
  else "bar"

/-! ## Concrete inputs used in the statements -/

/-- Ten distinct valid fenced JSON blocks. -/
def tenBlocksInput : String :=
  String.intercalate ("\n") ((List.range 10).map (fun i =>
    ("```json\n[\x7b\"value\":") ++ toString (i + 1) ++ ("\x7d]\n```")))

/-- The dataset of the `i`-th fenced block of `tenBlocksInput`. -/
def blockData (q : ℚ) : List Json :=
  [Json.obj [("value", Json.num (JSNum.finite q))]]

/-- A bold title with a `(TYPE: line)` annotation before a fenced
block of name/value records. -/
def revenueInput : String :=
  "**Revenue (TYPE: line)**\n```json\n[\x7b\"name\":\"A\",\"value\":5\x7d]\n```"

/-- A fenced block whose only data has all-zero values. -/
def zeroSumInput : String :=
  "```json\n[\x7b\"name\":\"A\",\"value\":0\x7d,\x7b\"name\":\"B\",\"value\":0\x7d]\n```"

/-- A markdown table whose second row has a negative value cancelling
the first. -/
def negTableInput : String :=
  "| Item | Amount |\n|---|---|\n| X | 5 |\n| Y | -5 |\n"

/-- The same markdown table appearing twice in one response. -/
def twoTablesInput : String :=
  "| A | B |\n|---|---|\n| X | 5 |\nmore text\n| A | B |\n|---|---|\n| X | 5 |\n"

/-- The single record both tables of `twoTablesInput` produce. -/
def twoTablesRecord : List Json :=
  [Json.obj [("name", Json.str "X"), ("value", Json.num (JSNum.finite (mkRat 5 1)))]]

/-- One fenced block followed by a markdown table. -/
def blockPlusTableInput : String :=
  "```json\n[\x7b\"name\":\"A\",\"value\":1\x7d]\n```\n| Region | Sales |\n|---|---|\n| East | 120 |\n"

/-- The same dataset appearing in two fenced blocks with its records
in a different order. -/
def permBlocksInput : String :=
  ("```json\n[\x7b\"name\":\"A\",\"value\":1\x7d,\x7b\"name\":\"B\",\"value\":2\x7d]\n```\nand\n") ++
  ("```json\n[\x7b\"name\":\"B\",\"value\":2\x7d,\x7b\"name\":\"A\",\"value\":1\x7d]\n```")

/-- A response with no chart candidates at all. -/
def helloInput : String := "Hello there, nothing here."

/-- An element whose only numeric field is `Infinity`. -/
def infOnlyElt : Json := Json.obj [("a", Json.num JSNum.inf)]

/-- A well-formed name/value element with a nonzero value. -/
def nvElt : Json :=
  Json.obj [("name", Json.str "b"), ("value", Json.num (JSNum.finite (mkRat 5 1)))]

/-- A valid x/y element carrying a nonzero `value` field. -/
def xyvElt : Json :=
  Json.obj [("x", Json.num (JSNum.finite (mkRat 1 1))), ("y", Json.num (JSNum.finite (mkRat 2 1))),
    ("value", Json.num (JSNum.finite (mkRat 3 1)))]

/-- The all-zero name/value candidate of the zero-sum test. -/
def zeroCandidate : List Json :=
  [Json.obj [("name", Json.str "A"), ("value", Json.num (JSNum.finite (mkRat 0 1)))],
   Json.obj [("name", Json.str "B"), ("value", Json.num (JSNum.finite (mkRat 0 1)))]]

set_option maxRecDepth 16384
set_option maxHeartbeats 4000000

theorem acceptChart_cases (now : Nat) (st : PState) (d : Json) (t : Option (List Char)) :
    acceptChart now st d t = st ∨
    ∃ c, (acceptChart now st d t =
        PState.mk (st.charts ++ [c]) (st.seen ++ [createDataSignature c.data])) ∧
      c.position = calculatePosition st.charts.length ∧
      isValidChartData (Json.arr c.data) = true ∧
      st.seen.contains (createDataSignature c.data) = false := by
  cases hv : isValidChartData d with
  | false => left; simp [acceptChart, hv]
  | true =>
    cases d with
    | num n => left; simp [acceptChart, hv]
    | str s => left; simp [acceptChart, hv]
    | bool b => left; simp [acceptChart, hv]
    | null => left; simp [acceptChart, hv]
    | obj fs => left; simp [acceptChart, hv]
    | arr l =>
      cases hc : st.seen.contains (createDataSignature l) with
      | true =>
        have hm : createDataSignature l ∈ st.seen := by simpa using hc
        left; simp [acceptChart, hv, hm]
      | false =>
        have hm : createDataSignature l ∉ st.seen := by simpa using hc
        right
        refine ⟨ChartSpec.mk (chartId now st.charts.length)
            (match (extractTitleAndType (orFallback t ("Chart " ++ toString (st.charts.length + 1)))).2 with
              | some ty => ty
              | none => detectChartType l)
            ((extractTitleAndType (orFallback t ("Chart " ++ toString (st.charts.length + 1)))).1)
            l (calculatePosition st.charts.length) (ChartOptions.mk true true) getDefaultColors,
          ?_, rfl, hv, hc⟩
        simp [acceptChart, hv, hm]

theorem pos_inv_append (cs : List ChartSpec) (c : ChartSpec)
    (h : ∀ i (hi : i < cs.length), (cs[i]).position = calculatePosition i)
    (hc : c.position = calculatePosition cs.length) :
    ∀ i (hi : i < (cs ++ [c]).length), ((cs ++ [c])[i]).position = calculatePosition i := by
  intro i hi
  simp only [List.length_append, List.length_cons, List.length_nil] at hi
  by_cases hlt : i < cs.length
  · rw [List.getElem_append_left hlt]
    exact h i hlt
  · have hie : i = cs.length := by omega
    rw [List.getElem_concat_length cs c i hie]
    rw [hie]
    exact hc

theorem acceptChart_StOK (now : Nat) (st : PState) (d : Json) (t : Option (List Char))
    (h : StOK st) : StOK (acceptChart now st d t) := by
  rcases acceptChart_cases now st d t with he | ⟨c, he, hpos, hval, hsig⟩
  · rw [he]; exact h
  · rw [he]
    obtain ⟨h1, h2, h3, h4⟩ := h
    refine ⟨pos_inv_append st.charts c h1 hpos, ?_, ?_, ?_⟩
    · intro c' hc'
      rcases List.mem_append.mp hc' with h' | h'
      · exact h2 c' h'
      · simp only [List.mem_singleton] at h'
        subst h'
        exact hval
    · intro c' hc'
      rcases List.mem_append.mp hc' with h' | h'
      · exact List.mem_append_left _ (h3 c' h')
      · simp only [List.mem_singleton] at h'
        subst h'
        exact List.mem_append_right _ (by simp)
    · rw [List.map_append, List.pairwise_append]
      refine ⟨h4, by simp, ?_⟩
      intro a ha b hb
      simp only [List.map_cons, List.map_nil, List.mem_singleton] at hb
      subst hb
      obtain ⟨c', hc', rfl⟩ := List.mem_map.mp ha
      have hseen := h3 c' hc'
      have hnot : createDataSignature c.data ∉ st.seen := by simpa using hsig
      intro heq
      rw [heq] at hseen
      exact hnot hseen

theorem StOK_empty : StOK (PState.mk [] []) := by
  refine ⟨?_, ?_, ?_, ?_⟩
  · intro i h
    simp at h
  · intro c hc
    simp at hc
  · intro c hc
    simp at hc
  · simp

theorem stepBlock_StOK (now : Nat) (text : List Char) (st : PState) (m : Nat × List Char)
    (h : StOK st) : StOK (stepBlock now text st m) := by
  unfold stepBlock
  cases jsonParse (trimChars m.2) with
  | error e => exact h
  | ok d => exact acceptChart_StOK now st d _ h

theorem stepInline_StOK (now : Nat) (text : List Char) (st : PState) (m : List Char)
    (h : StOK st) : StOK (stepInline now text st m) := by
  unfold stepInline
  cases jsonParse m with
  | error e => exact h
  | ok d => exact acceptChart_StOK now st d _ h

theorem processBlocks_StOK (now : Nat) (text : List Char) :
    ∀ (l : List (Nat × List Char)) (st : PState), StOK st →
      StOK (processBlocks now text l st)
  | [], _, h => h
  | m :: rest, st, h => by
    unfold processBlocks
    by_cases h8 : MAX_CHARTS ≤ st.charts.length
    · rw [if_pos h8]
      exact h
    · rw [if_neg h8]
      exact processBlocks_StOK now text rest _ (stepBlock_StOK now text st m h)

theorem processInline_StOK (now : Nat) (text : List Char) :
    ∀ (l : List (List Char)) (st : PState), StOK st →
      StOK (processInline now text l st)
  | [], _, h => h
  | m :: rest, st, h => by
    unfold processInline
    by_cases h8 : MAX_CHARTS ≤ st.charts.length
    · rw [if_pos h8]
      exact h
    · rw [if_neg h8]
      exact processInline_StOK now text rest _ (stepInline_StOK now text st m h)

theorem phase01_StOK (now : Nat) (text : List Char) : StOK (phase01 now text) :=
  processInline_StOK now text _ _
    (processBlocks_StOK now text _ _ StOK_empty)

theorem acceptChart_len (now : Nat) (st : PState) (d : Json) (t : Option (List Char)) :
    (acceptChart now st d t).charts.length ≤ st.charts.length + 1 := by
  rcases acceptChart_cases now st d t with he | ⟨c, he, _, _, _⟩
  · rw [he]; omega
  · rw [he]; simp

theorem stepBlock_len (now : Nat) (text : List Char) (st : PState) (m : Nat × List Char) :
    (stepBlock now text st m).charts.length ≤ st.charts.length + 1 := by
  unfold stepBlock
  cases jsonParse (trimChars m.2) with
  | error e => exact Nat.le_succ _
  | ok d => exact acceptChart_len now st d _

theorem stepInline_len (now : Nat) (text : List Char) (st : PState) (m : List Char) :
    (stepInline now text st m).charts.length ≤ st.charts.length + 1 := by
  unfold stepInline
  cases jsonParse m with
  | error e => exact Nat.le_succ _
  | ok d => exact acceptChart_len now st d _

theorem processBlocks_len (now : Nat) (text : List Char) :
    ∀ (l : List (Nat × List Char)) (st : PState),
      st.charts.length ≤ MAX_CHARTS →
      (processBlocks now text l st).charts.length ≤ MAX_CHARTS
  | [], _, h => h
  | m :: rest, st, h => by
    unfold processBlocks
    by_cases h8 : MAX_CHARTS ≤ st.charts.length
    · rw [if_pos h8]
      exact h
    · rw [if_neg h8]
      refine processBlocks_len now text rest _ ?_
      have := stepBlock_len now text st m
      unfold MAX_CHARTS at *
      omega

theorem processInline_len (now : Nat) (text : List Char) :
    ∀ (l : List (List Char)) (st : PState),
      st.charts.length ≤ MAX_CHARTS →
      (processInline now text l st).charts.length ≤ MAX_CHARTS
  | [], _, h => h
  | m :: rest, st, h => by
    unfold processInline
    by_cases h8 : MAX_CHARTS ≤ st.charts.length
    · rw [if_pos h8]
      exact h
    · rw [if_neg h8]
      refine processInline_len now text rest _ ?_
      have := stepInline_len now text st m
      unfold MAX_CHARTS at *
      omega

theorem phase01_len (now : Nat) (text : List Char) :
    (phase01 now text).charts.length ≤ MAX_CHARTS :=
  processInline_len now text _ _
    (processBlocks_len now text _ _ (by simp [MAX_CHARTS]))

theorem parseCharts_len (now : Nat) (s : String) :
    (parseChartsFromResponse now s).length ≤ MAX_CHARTS := by
  unfold parseChartsFromResponse
  dsimp only
  have h1 := phase01_len now s.data
  by_cases hc2 : (phase01 now s.data).charts.length < MAX_CHARTS
  · rw [if_pos hc2]
    by_cases hc3 : ((phase01 now s.data).charts ++
        (extractChartsFromTables now s.data).take
          (MAX_CHARTS - (phase01 now s.data).charts.length)).length < MAX_CHARTS
    · rw [if_pos hc3]
      simp only [List.length_append, List.length_take] at *
      omega
    · rw [if_neg hc3]
      simp only [List.length_append, List.length_take] at *
      omega
  · rw [if_neg hc2]
    by_cases hc3 : (phase01 now s.data).charts.length < MAX_CHARTS
    · omega
    · rw [if_neg hc3]
      omega

theorem stepBlockE_eq (now : Nat) (text : List Char) (st : PState) (m : Nat × List Char) :
    stepBlockE now text st m = Except.ok (stepBlock now text st m) := by
  cases h : jsonParse (trimChars m.2) with
  | error e => simp [stepBlockE, stepBlock, tryCatchE, h]
  | ok d => simp [stepBlockE, stepBlock, tryCatchE, h]

theorem stepInlineE_eq (now : Nat) (text : List Char) (st : PState) (m : List Char) :
    stepInlineE now text st m = Except.ok (stepInline now text st m) := by
  cases h : jsonParse m with
  | error e => simp [stepInlineE, stepInline, tryCatchE, h]
  | ok d => simp [stepInlineE, stepInline, tryCatchE, h]

theorem processBlocksE_eq (now : Nat) (text : List Char) :
    ∀ (l : List (Nat × List Char)) (st : PState),
      processBlocksE now text l st = Except.ok (processBlocks now text l st)
  | [], st => rfl
  | m :: rest, st => by
    unfold processBlocksE processBlocks
    by_cases h8 : MAX_CHARTS ≤ st.charts.length
    · rw [if_pos h8, if_pos h8]
    · rw [if_neg h8, if_neg h8, stepBlockE_eq]
      exact processBlocksE_eq now text rest (stepBlock now text st m)

theorem processInlineE_eq (now : Nat) (text : List Char) :
    ∀ (l : List (List Char)) (st : PState),
      processInlineE now text l st = Except.ok (processInline now text l st)
  | [], st => rfl
  | m :: rest, st => by
    unfold processInlineE processInline
    by_cases h8 : MAX_CHARTS ≤ st.charts.length
    · rw [if_pos h8, if_pos h8]
    · rw [if_neg h8, if_neg h8, stepInlineE_eq]
      exact processInlineE_eq now text rest (stepInline now text st m)

theorem parseChartsE_eq (now : Nat) (s : String) :
    parseChartsE now s = Except.ok (parseChartsFromResponse now s) := by
  unfold parseChartsE parseChartsFromResponse phase01
  dsimp only
  rw [processBlocksE_eq]
  dsimp only
  rw [processInlineE_eq]

theorem tableStep_cases (now : Nat) (text : List Char) (charts : List ChartSpec)
    (m : List Char × List Char × List Char) :
    tableStep now text charts m = charts ∨
    ∃ c, tableStep now text charts m = charts ++ [c] ∧
      c.position = calculatePosition charts.length := by
  unfold tableStep
  dsimp only
  split
  · split
    · right
      exact ⟨_, rfl, rfl⟩
    · left; rfl
  · left; rfl

theorem listStep_cases (now : Nat) (charts : List ChartSpec) (m : List Char × List Char) :
    listStep now charts m = charts ∨
    ∃ c, listStep now charts m = charts ++ [c] ∧
      c.position = calculatePosition charts.length := by
  unfold listStep
  dsimp only
  split
  · right
    exact ⟨_, rfl, rfl⟩
  · left; rfl

theorem foldl_pos_inv {β : Type} (f : List ChartSpec → β → List ChartSpec)
    (hf : ∀ cs b, f cs b = cs ∨
      ∃ c, f cs b = cs ++ [c] ∧ c.position = calculatePosition cs.length) :
    ∀ (l : List β) (cs : List ChartSpec)
      (_ : ∀ i (hi : i < cs.length), (cs[i]).position = calculatePosition i)
      (i : Nat) (hi : i < (l.foldl f cs).length),
      ((l.foldl f cs)[i]).position = calculatePosition i
  | [], cs, h, i, hi => h i hi
  | b :: rest, cs, h, i, hi => by
    rw [List.foldl_cons] at hi
    refine foldl_pos_inv f hf rest (f cs b) ?_ i hi
    rcases hf cs b with he | ⟨c, he, hp⟩
    · rw [he]
      exact h
    · rw [he]
      exact pos_inv_append cs c h hp

theorem tables_pos (now : Nat) (text : List Char) :
    ∀ i (hi : i < (extractChartsFromTables now text).length),
      ((extractChartsFromTables now text)[i]).position = calculatePosition i := by
  intro i hi
  exact foldl_pos_inv (tableStep now text) (tableStep_cases now text) (tableMatches text) []
    (by intro j hj; simp at hj) i hi

theorem lists_pos (now : Nat) (text : List Char) :
    ∀ i (hi : i < (extractChartsFromLists now text).length),
      ((extractChartsFromLists now text)[i]).position = calculatePosition i := by
  intro i hi
  exact foldl_pos_inv (listStep now) (listStep_cases now) (sectionMatches text) []
    (by intro j hj; simp at hj) i hi

theorem ratAdd_eq (a b : ℚ) : ratAdd a b = a + b :=
  (Rat.add_def' a b).symm

theorem valueOrZero_finite (q : ℚ) :
    valueOrZero (some (Json.num (JSNum.finite q))) = AddVal.num (JSNum.finite q) := by
  by_cases h : q = 0
  · subst h
    simp [valueOrZero, truthyNum]
  · simp [valueOrZero, truthyNum, h]

theorem valueOrZero_of_absentOrFinite (it : Json) (h : valueAbsentOrFinite it = true) :
    valueOrZero (jsGet it "value") = AddVal.num (JSNum.finite (valueFieldQ it)) := by
  unfold valueAbsentOrFinite at h
  unfold valueFieldQ
  cases hv : jsGet it "value" with
  | none => simp [valueOrZero]
  | some v =>
    rw [hv] at h
    cases v with
    | num n =>
      cases n with
      | finite q => simp [valueOrZero_finite q]
      | nan => simp at h
      | inf => simp at h
      | negInf => simp at h
    | str s => simp at h
    | bool b => simp at h
    | null => simp at h
    | arr l => simp at h
    | obj fs => simp at h

theorem fold_addJs_finite :
    ∀ (items : List Json) (a : ℚ),
      (∀ it ∈ items, valueAbsentOrFinite it = true) →
      (items.map (fun it => valueOrZero (jsGet it "value"))).foldl addJs
          (AddVal.num (JSNum.finite a))
        = AddVal.num (JSNum.finite (a + valueFieldSum items))
  | [], a, _ => by simp [valueFieldSum]
  | it :: rest, a, h => by
    simp only [List.map_cons, List.foldl_cons]
    rw [valueOrZero_of_absentOrFinite it (h it (by simp))]
    show (rest.map (fun x => valueOrZero (jsGet x "value"))).foldl addJs
        (AddVal.num (JSNum.finite (ratAdd a (valueFieldQ it)))) = _
    rw [ratAdd_eq]
    rw [fold_addJs_finite rest (a + valueFieldQ it) (fun x hx => h x (by simp [hx]))]
    have hsum : valueFieldSum (it :: rest) = valueFieldQ it + valueFieldSum rest := by
      simp [valueFieldSum]
    rw [hsum, ← add_assoc]

theorem zero_sum_invalid (items : List Json)
    (habs : ∀ it ∈ items, valueAbsentOrFinite it = true)
    (hsum : valueFieldSum items = 0) :
    isValidChartData (Json.arr items) = false := by
  simp only [isValidChartData]
  by_cases h0 : items.length = 0
  · rw [if_pos h0]
  · rw [if_neg h0]
    cases hs : items.all itemValidStructure with
    | false => simp [hs]
    | true =>
      simp only [hs, Bool.not_true]
      rw [fold_addJs_finite items 0 habs, hsum]
      simp


theorem valid_all_structure (items : List Json)
    (h : isValidChartData (Json.arr items) = true) :
    items.all itemValidStructure = true := by
  simp only [isValidChartData] at h
  by_cases h0 : items.length = 0
  · rw [if_pos h0] at h
    simp at h
  · rw [if_neg h0] at h
    cases hs : items.all itemValidStructure with
    | true => rfl
    | false =>
      rw [hs] at h
      simp at h

theorem generic_structure_nonNaN (item : Json)
    (hst : itemValidStructure item = true)
    (hgen : genericShapeApplies item = true) :
    (jsFields item).any (fun kv => isNonNaNNumber kv.2) = true := by
  unfold genericShapeApplies at hgen
  rw [Bool.and_eq_true] at hgen
  obtain ⟨hnv, hxy⟩ := hgen
  rw [Bool.not_eq_true'] at hnv hxy
  simp only [itemValidStructure] at hst
  rw [hnv, hxy] at hst
  cases hobj : isObjectLike item with
  | false =>
    rw [hobj] at hst
    simp at hst
  | true =>
    rw [hobj] at hst
    simp only [Bool.not_true, Bool.false_eq_true, if_false] at hst
    by_cases hk : (jsKeys item).length = 0
    · rw [if_pos hk] at hst
      simp at hst
    · rw [if_neg hk] at hst
      have hlen : 1 ≤ ((jsFields item).filter (fun kv => isNonNaNNumber kv.2)).length :=
        of_decide_eq_true hst
      have hne : (jsFields item).filter (fun kv => isNonNaNNumber kv.2) ≠ [] := by
        intro hnil
        rw [hnil] at hlen
        simp at hlen
      obtain ⟨x, hx⟩ := List.exists_mem_of_ne_nil _ hne
      have hxf := List.mem_filter.mp hx
      exact List.any_eq_true.mpr ⟨x, hxf.1, hxf.2⟩

theorem parse_empty_of_no_candidates (now : Nat) (s : String)
    (h1 : blockMatches s.data = []) (h2 : inlineMatches s.data = [])
    (h3 : extractChartsFromTables now s.data = [])
    (h4 : extractChartsFromLists now s.data = []) :
    parseChartsFromResponse now s = [] := by
  unfold parseChartsFromResponse phase01
  dsimp only
  rw [h1, h2, h3, h4]
  simp [processBlocks, processInline, MAX_CHARTS]

/-! ## Claims -/

/-- C1: for every input string, `parseChartsFromResponse` returns at
most 8 ChartSpecs, and an input containing 10 distinct valid fenced
JSON blocks yields exactly 8 ChartSpecs, carrying the first 8 blocks'
datasets in order of appearance. -/
theorem c1_bounded_and_ten_blocks :
    (∀ (now : Nat) (s : String), (parseChartsFromResponse now s).length ≤ 8) ∧
    (parseChartsFromResponse 0 tenBlocksInput).map (fun c => c.data) =
      [blockData (mkRat 1 1), blockData (mkRat 2 1), blockData (mkRat 3 1),
       blockData (mkRat 4 1), blockData (mkRat 5 1), blockData (mkRat 6 1),
       blockData (mkRat 7 1), blockData (mkRat 8 1)] :=
  ⟨fun now s => parseCharts_len now s, by rfl⟩

/-- C2: the pipeline in the exception-transparent semantics always
returns `ok` — parse failures are caught and skipped — and when no
extractor finds any candidate the result is the empty sequence. -/
theorem c2_never_raises_and_empty :
    (∀ (now : Nat) (s : String),
      parseChartsE now s = Except.ok (parseChartsFromResponse now s)) ∧
    (∀ (now : Nat) (s : String),
      blockMatches s.data = [] → inlineMatches s.data = [] →
      extractChartsFromTables now s.data = [] → extractChartsFromLists now s.data = [] →
      parseChartsFromResponse now s = []) :=
  ⟨parseChartsE_eq, parse_empty_of_no_candidates⟩

/-- C2 witness: on a candidate-free input, the pipeline returns `ok []`. -/
theorem c2_witness :
    parseChartsE 0 helloInput = Except.ok (parseChartsFromResponse 0 helloInput) ∧
    parseChartsFromResponse 0 helloInput = [] :=
  ⟨c2_never_raises_and_empty.1 0 helloInput,
   c2_never_raises_and_empty.2 0 helloInput (by rfl) (by rfl) (by rfl) (by rfl)⟩

/-- C3 counterexample: a markdown table whose values cancel to zero
produces a ChartSpec whose data fails the Validator, so not every
output ChartSpec satisfies it. -/
theorem c3_counterexample :
    (parseChartsFromResponse 0 negTableInput).map
      (fun c => isValidChartData (Json.arr c.data)) = [false] := by rfl

/-- C3 (amended): every ChartSpec accepted by the fenced-block and
inline-array phases satisfies the Validator (table and bullet-list
charts are appended without validation and need not). -/
theorem c3_amended_valid_phase01 (now : Nat) (text : List Char) (i : Nat)
    (h : i < (phase01 now text).charts.length) :
    isValidChartData (Json.arr (((phase01 now text).charts[i]).data)) = true := by
  have hm : (phase01 now text).charts[i] ∈ (phase01 now text).charts :=
    List.getElem_mem h
  exact (phase01_StOK now text).2.1 _ hm

/-- C3 witness: the fenced-block chart of a concrete input has
validated data. -/
theorem c3_witness :
    0 < (phase01 0 (revenueInput).data).charts.length ∧
    isValidChartData (Json.arr (((phase01 0 (revenueInput).data).charts.get
      ⟨0, by decide⟩).data)) = true :=
  ⟨by decide, c3_amended_valid_phase01 0 (revenueInput).data 0 (by decide)⟩

/-- C4 counterexample: the same markdown table appearing twice yields
two ChartSpecs with equal dataset signatures in one run. -/
theorem c4_counterexample :
    (parseChartsFromResponse 0 twoTablesInput).map (fun c => createDataSignature c.data) =
      [createDataSignature twoTablesRecord, createDataSignature twoTablesRecord] := by rfl

/-- C4 (amended): no two ChartSpecs accepted by the fenced-block and
inline-array phases share a dataset signature — in particular a
dataset appearing in two fenced blocks with reordered records yields
one ChartSpec — while table and bullet-list charts bypass the
signature check. -/
theorem c4_amended_phase01_distinct :
    (∀ (now : Nat) (text : List Char),
      ((phase01 now text).charts.map (fun c => createDataSignature c.data)).Pairwise
        (fun a b => ¬ a = b)) ∧
    (parseChartsFromResponse 0 permBlocksInput).length = 1 :=
  ⟨fun now text => (phase01_StOK now text).2.2.2, by rfl⟩

/-- C5 counterexample: with one fenced chart followed by one table
chart, the chart at output index 1 has position `{x:0,y:0,w:6,h:4}`,
not the `{x:6,y:0,w:6,h:4}` the index formula prescribes. -/
theorem c5_counterexample :
    (parseChartsFromResponse 0 blockPlusTableInput).map (fun c => c.position) =
      [Pos.mk 0 0 6 4, Pos.mk 0 0 6 4] ∧
    calculatePosition 1 = Pos.mk 6 0 6 4 ∧
    ¬ (Pos.mk 0 0 6 4 = Pos.mk 6 0 6 4) :=
  ⟨by rfl, by rfl, by decide⟩

/-- C5 (amended): fenced-block and inline-array charts are positioned
by the formula at their index in the accepted sequence (their final
output index); table and bullet-list charts are positioned by the
formula at their index within their own extractor's batch. -/
theorem c5_amended_positions :
    (∀ (now : Nat) (text : List Char) (i : Nat)
      (h : i < (phase01 now text).charts.length),
      ((phase01 now text).charts[i]).position = calculatePosition i) ∧
    (∀ (now : Nat) (text : List Char) (j : Nat)
      (h : j < (extractChartsFromTables now text).length),
      ((extractChartsFromTables now text)[j]).position = calculatePosition j) ∧
    (∀ (now : Nat) (text : List Char) (j : Nat)
      (h : j < (extractChartsFromLists now text).length),
      ((extractChartsFromLists now text)[j]).position = calculatePosition j) :=
  ⟨fun now text i h => (phase01_StOK now text).1 i h, tables_pos, lists_pos⟩

/-- C5 witness: the first accepted chart and the first table chart of
concrete inputs sit at the position of index 0. -/
theorem c5_witness :
    (0 < (phase01 0 (revenueInput).data).charts.length ∧
      ((phase01 0 (revenueInput).data).charts.get ⟨0, by decide⟩).position =
        calculatePosition 0) ∧
    (0 < (extractChartsFromTables 0 (negTableInput).data).length ∧
      ((extractChartsFromTables 0 (negTableInput).data).get ⟨0, by decide⟩).position =
        calculatePosition 0) :=
  ⟨⟨by decide, c5_amended_positions.1 0 (revenueInput).data 0 (by decide)⟩,
   ⟨by decide, c5_amended_positions.2.1 0 (negTableInput).data 0 (by decide)⟩⟩

/-- C6 counterexample: a candidate holding an element whose only
numeric field is `Infinity` is accepted by the Validator under the
generic shape rule, although the element has no finite numeric
field. -/
theorem c6_counterexample :
    isValidChartData (Json.arr [infOnlyElt, nvElt]) = true ∧
    genericShapeApplies infOnlyElt = true ∧
    hasFiniteNumericField infOnlyElt = false :=
  ⟨by rfl, by rfl, by rfl⟩

/-- C6 (amended): an element accepted under the generic shape rule has
at least one field whose value is a number other than `NaN`
(`Infinity` and `-Infinity` qualify; finiteness is not required). -/
theorem c6_amended_generic_nonNaN (items : List Json) (item : Json)
    (hv : isValidChartData (Json.arr items) = true)
    (hm : item ∈ items)
    (hg : genericShapeApplies item = true) :
    (jsFields item).any (fun kv => isNonNaNNumber kv.2) = true := by
  have hall := valid_all_structure items hv
  have hst : itemValidStructure item = true := by
    rw [List.all_eq_true] at hall
    exact hall item hm
  exact generic_structure_nonNaN item hst hg

/-- C6 witness: the amended rule applied to the accepted
Infinity-valued element. -/
theorem c6_witness :
    isValidChartData (Json.arr [infOnlyElt, nvElt]) = true ∧
    (jsFields infOnlyElt).any (fun kv => isNonNaNNumber kv.2) = true :=
  ⟨by rfl,
   c6_amended_generic_nonNaN [infOnlyElt, nvElt] infOnlyElt (by rfl) (by simp) (by rfl)⟩

/-- C7: a candidate whose `value` fields (absent read as 0) are finite
and sum to exactly zero is rejected by the Validator, and the response
whose only data block is the all-zero name/value pair yields no
charts. -/
theorem c7_zero_sum_rejected :
    (∀ (items : List Json), (∀ it ∈ items, valueAbsentOrFinite it = true) →
      valueFieldSum items = 0 → isValidChartData (Json.arr items) = false) ∧
    parseChartsFromResponse 0 zeroSumInput = [] :=
  ⟨zero_sum_invalid, by rfl⟩

/-- C7 witness: the all-zero candidate satisfies the hypotheses and is
rejected. -/
theorem c7_witness :
    (∀ it ∈ zeroCandidate, valueAbsentOrFinite it = true) ∧
    valueFieldSum zeroCandidate = 0 ∧
    isValidChartData (Json.arr zeroCandidate) = false := by
  have hsum0 : valueFieldSum zeroCandidate = 0 := by
    show mkRat 0 1 + (mkRat 0 1 + 0) = 0
    simp
  exact ⟨by decide, hsum0, c7_zero_sum_rejected.1 zeroCandidate (by decide) hsum0⟩

/-- C8: a bold title `**Revenue (TYPE: line)**` before a fenced
name/value block yields one ChartSpec of type `line` titled `Revenue`:
the annotation is stripped and overrides shape classification. -/
theorem c8_annotation_overrides :
    (parseChartsFromResponse 0 revenueInput).map (fun c => (c.type, c.title)) =
      [("line", "Revenue")] := by rfl

/-- C9: on a non-empty valid candidate, `detectChartType` computes
exactly the spec's first-record classification: x and y present →
scatter, else a time-related field name → line, else more than 5
fields → table, else bar. -/
theorem c9_first_record_classification (r : Json) (rest : List Json)
    (_hv : isValidChartData (Json.arr (r :: rest)) = true) :
    detectChartType (r :: rest) = classifySpecKeys (jsKeys r) :=
  rfl

/-- C9 witness: a valid x/y candidate classifies as scatter. -/
theorem c9_witness :
    isValidChartData (Json.arr [xyvElt]) = true ∧
    detectChartType [xyvElt] = classifySpecKeys (jsKeys xyvElt) ∧
    classifySpecKeys (jsKeys xyvElt) = "scatter" :=
  ⟨by rfl, c9_first_record_classification xyvElt [] (by rfl), by rfl⟩

